import Mathlib

/-!
Verification development for the boot-time pool discovery and import engine
in `module/zfs/zfs_boot.cpp`.

The C code is shallowly embedded: the intrusive singly-linked lists
(`pool_entry_t` / `vdev_entry_t` / `config_entry_t` / `name_entry_t`) become
Lean `List`s in the same order (the source always prepends new entries, so
`ne->ne_next = pl->names; pl->names = ne` is modelled as `ne :: pl.names`),
decoded nvlist configurations become a record of `Option` fields for the keys
the engine consults (an absent key is `none`, mirroring a failed
`nvlist_lookup_*`), and unsigned 64-bit arithmetic is `Nat` with explicit
`% 2 ^ 64` where wraparound matters.  `kmem_alloc(..., KM_SLEEP)` never
returns NULL (it sleeps), so the source's allocation-failure branches are
dead and the embedded functions return the source's success code `0`.
-/

/-! ### Constants from the source and the vendored headers -/

/-- `ZFS_BOOT_ACTIVE` (zfs_boot.cpp line 159). -/
def ZFS_BOOT_ACTIVE : Nat := 0x1

/-- `ZFS_BOOT_TERMINATING` (zfs_boot.cpp line 160). -/
def ZFS_BOOT_TERMINATING : Nat := 0x2

/-- `POOL_STATE_ACTIVE` from the `pool_state_t` enum in `sys/fs/zfs.h`. -/
def POOL_STATE_ACTIVE : Nat := 0

/-- `POOL_STATE_EXPORTED` from `pool_state_t`. -/
def POOL_STATE_EXPORTED : Nat := 1

/-- `POOL_STATE_DESTROYED` from `pool_state_t`. -/
def POOL_STATE_DESTROYED : Nat := 2

/-- `POOL_STATE_SPARE` from `pool_state_t`. -/
def POOL_STATE_SPARE : Nat := 3

/-- `POOL_STATE_L2CACHE` from `pool_state_t`. -/
def POOL_STATE_L2CACHE : Nat := 4

/-- `SPA_MINDEVSIZE` (64 MiB) from `sys/spa.h`. -/
def SPA_MINDEVSIZE : Nat := 64 * 2 ^ 20

/-- `ZFS_MAX_DATASET_NAME_LEN` (`MAXNAMELEN`, 256) from `sys/fs/zfs.h`. -/
def ZFS_MAX_DATASET_NAME_LEN : Nat := 256

/-- `VDEV_LABELS` (4 label copies per device) from `sys/vdev_impl.h`. -/
def VDEV_LABELS : Nat := 4

/-- `sizeof (vdev_label_t)`: 256 KiB in the reference on-disk format. -/
def vdev_label_size : Nat := 262144

/-- Modulus of unsigned 64-bit (`uint64_t` / `UInt64`) arithmetic. -/
def u64Mod : Nat := 2 ^ 64

/-- Unsigned 64-bit subtraction `a - b` with wraparound, as `Nat`. -/
def sub64 (a b : Nat) : Nat := (a + (u64Mod - b % u64Mod)) % u64Mod

/-- `ZFS_BOOT_DEV_BSIZE`, i.e. `(UInt64)(1<<9)` (zfs_boot.cpp line 108). -/
def ZFS_BOOT_DEV_BSIZE : Nat := 1 <<< 9

/-- `ZFS_BOOT_DEV_BCOUNT`, i.e. `(UInt64)(2<<29)` (zfs_boot.cpp line 109).
The comment above the define says "count is 512 M blocks". -/
def ZFS_BOOT_DEV_BCOUNT : Nat := 2 <<< 29

/-! ### Decoded label configurations (nvlists)

A decoded vdev label configuration is a property map; the engine only ever
consults the keys below, so the map is embedded as a record of `Option`
fields.  `nvlist_lookup_*` returning non-zero (key absent) is `none`. -/

/-- A (top-level) vdev tree as far as the engine inspects it:
`ZPOOL_CONFIG_TYPE`, `ZPOOL_CONFIG_ID`, `ZPOOL_CONFIG_GUID`. -/
structure VdevNode where
  vtype : String
  id : Nat
  guid : Nat
  deriving DecidableEq, Repr

/-- A decoded label configuration (`nvlist_t *config`), restricted to the
keys read by zfs_boot.cpp.  `nvlist_lookup` failure is `none`.
`vdev_tree` models `ZPOOL_CONFIG_VDEV_TREE` whose `ZPOOL_CONFIG_ID` the
source reads under a (non-fatal) `verify`. -/
structure NvConfig where
  pool_guid : Option Nat := none
  pool_name : Option String := none
  pool_state : Option Nat := none
  pool_txg : Option Nat := none
  guid : Option Nat := none
  top_guid : Option Nat := none
  vdev_children : Option Nat := none
  hole_array : Option (List Nat) := none
  vdev_tree : Option VdevNode := none
  deriving DecidableEq, Repr

/-- An `IOMedia` block device as far as the engine inspects it: media UUID
property, BSD name property, byte size, leaf flag, and the outcome of
decoding each of its `VDEV_LABELS` label copies in offset order 0..3
(`none` = failed read / short read / `nvlist_unpack` error for that copy). -/
structure Device where
  uuid : Option String := none
  bsdName : Option String := none
  size : Nat := 0
  isLeaf : Bool := false
  labels : List (Option NvConfig) := []
  deriving DecidableEq, Repr

/-! ### The aggregation tree (`pool_list_t` and its entry lists) -/

/-- `config_entry_t` (zfs_boot.cpp lines 118-122). -/
structure config_entry where
  ce_txg : Nat
  ce_config : NvConfig
  deriving DecidableEq, Repr

/-- `vdev_entry_t` (zfs_boot.cpp lines 124-128). -/
structure vdev_entry where
  ve_guid : Nat
  ve_configs : List config_entry
  deriving DecidableEq, Repr

/-- `pool_entry_t` (zfs_boot.cpp lines 130-135). -/
structure pool_entry where
  pe_guid : Nat
  pe_vdevs : List vdev_entry
  deriving DecidableEq, Repr

/-- `name_entry_t` (zfs_boot.cpp lines 137-143). -/
structure name_entry where
  ne_name : String
  ne_guid : Nat
  ne_order : Nat
  ne_num_labels : Nat
  deriving DecidableEq, Repr

/-- `pool_list_t` (zfs_boot.cpp lines 145-157).  The mutex, condvar,
IOKit handles and the unused `new_disks` field are synchronization /
host-object plumbing with no data content and are not part of the
sequential model; `disks` is the `OSSet` of pending devices. -/
structure pool_list where
  pools : List pool_entry := []
  names : List name_entry := []
  pool_guid : Nat := 0
  pool_name : Option String := none
  disks : List Device := []
  terminating : Nat := ZFS_BOOT_ACTIVE
  deriving DecidableEq, Repr

/-! ### `zfs_boot_get_devid` and `zfs_boot_add_config` -/

/-- `zfs_boot_get_devid` (zfs_boot.cpp lines 173-183): the devid interface
is unavailable in this port, so the function always returns NULL. -/
def zfs_boot_get_devid (_path : String) : Option String := none

/-- Apply `f` to the first element satisfying `p`, leaving the rest alone.
This is the net effect of the source's scan-then-mutate-in-place pattern
on its intrusive lists. -/
def applyFirst (p : α → Bool) (f : α → α) : List α → List α
  | [] => []
  | x :: rest => if p x then f x :: rest else x :: applyFirst p f rest

/-- The spare/l2cache classification at the top of `zfs_boot_add_config`
(zfs_boot.cpp lines 321-324): state present and SPARE or L2CACHE, and the
vdev guid present. -/
def zfs_boot_spare_case (config : NvConfig) : Bool :=
  (match config.pool_state with
   | some state => state == POOL_STATE_SPARE || state == POOL_STATE_L2CACHE
   | none => false) && config.guid.isSome

/-- Third step of `zfs_boot_add_config` (lines 410-428): look for a config
entry with a matching transaction group; if found do nothing (the incoming
config is freed), otherwise prepend a new `config_entry_t`. -/
def zfs_boot_insert_config (cfgs : List config_entry) (txg : Nat)
    (config : NvConfig) : List config_entry :=
  if cfgs.any (fun ce => ce.ce_txg == txg) then cfgs
  else ⟨txg, config⟩ :: cfgs

/-- Second step of `zfs_boot_add_config` (lines 388-403): find or prepend
the `vdev_entry_t` with this top-level guid, then insert the config. -/
def zfs_boot_insert_vdev (ves : List vdev_entry) (top_guid txg : Nat)
    (config : NvConfig) : List vdev_entry :=
  if ves.any (fun ve => ve.ve_guid == top_guid) then
    applyFirst (fun ve => ve.ve_guid == top_guid)
      (fun ve => { ve with ve_configs := zfs_boot_insert_config ve.ve_configs txg config }) ves
  else ⟨top_guid, zfs_boot_insert_config [] txg config⟩ :: ves

/-- First step of `zfs_boot_add_config` (lines 367-382): find or prepend
the `pool_entry_t` with this pool guid, then insert the vdev/config. -/
def zfs_boot_insert_pool (pools : List pool_entry) (pool_guid top_guid txg : Nat)
    (config : NvConfig) : List pool_entry :=
  if pools.any (fun pe => pe.pe_guid == pool_guid) then
    applyFirst (fun pe => pe.pe_guid == pool_guid)
      (fun pe => { pe with pe_vdevs := zfs_boot_insert_vdev pe.pe_vdevs top_guid txg config }) pools
  else ⟨pool_guid, zfs_boot_insert_vdev [] top_guid txg config⟩ :: pools

/-- `zfs_boot_add_config` (zfs_boot.cpp lines 303-454).  Returns the
source's return code together with the updated pool list.  Under
`KM_SLEEP` the allocation-failure `-1` paths are unreachable, so every
modelled path returns 0. -/
def zfs_boot_add_config (pl : pool_list) (path : String)
    (order num_labels : Nat) (config : NvConfig) : Int × pool_list :=
  if zfs_boot_spare_case config then
    (0, { pl with names :=
      ⟨path, config.guid.getD 0, order, num_labels⟩ :: pl.names })
  else
    match config.pool_guid, config.guid, config.top_guid, config.pool_txg with
    | some pool_guid, some vdev_guid, some top_guid, some txg =>
      if txg = 0 then (0, pl)
      else
        (0, { pl with
          pools := zfs_boot_insert_pool pl.pools pool_guid top_guid txg config,
          names := ⟨path, vdev_guid, order, num_labels⟩ :: pl.names })
    | _, _, _, _ => (0, pl)

/-- One recorded call to `zfs_boot_add_config`. -/
structure AddCall where
  path : String
  order : Nat
  num_labels : Nat
  config : NvConfig

/-- Replay a sequence of `zfs_boot_add_config` calls against an initially
empty aggregation tree (the state `zfs_boot_init` creates). -/
def zfs_boot_run (calls : List AddCall) : pool_list :=
  calls.foldl (fun pl c => (zfs_boot_add_config pl c.path c.order c.num_labels c.config).2) {}

/-- Spec invariant 2 (§3): within a `VdevEntry.configs`, no two entries
share the same `txg`. -/
def vdev_txgs_nodup (pl : pool_list) : Prop :=
  ∀ pe ∈ pl.pools, ∀ ve ∈ pe.pe_vdevs,
    (ve.ve_configs.map config_entry.ce_txg).Nodup

/-! ### Label codec: `zfs_boot_label_offset` and `zfs_boot_read_label` -/

/-- `zfs_boot_label_offset` (zfs_boot.cpp lines 991-996):
`l * sizeof (vdev_label_t) + (l < VDEV_LABELS / 2 ? 0 :
size - VDEV_LABELS * sizeof (vdev_label_t))` in `uint64_t` arithmetic. -/
def zfs_boot_label_offset (size l : Nat) : Nat :=
  (l * vdev_label_size +
    (if l < VDEV_LABELS / 2 then 0
     else sub64 size (VDEV_LABELS * vdev_label_size))) % u64Mod

/-- `P2ALIGN_TYPED(mediaSize, labelsize, uint64_t)` (zfs_boot.cpp line
1035): round down to a multiple of the label size. -/
def p2align (x a : Nat) : Nat := x - x % a

/-- The byte offset `zfs_boot_read_label` reads copy `l` from
(zfs_boot.cpp lines 1035 and 1072-1074): the label offset computed over
the aligned device size. -/
def zfs_boot_read_offset (mediaSize l : Nat) : Nat :=
  zfs_boot_label_offset (p2align mediaSize vdev_label_size) l

/-- The per-copy acceptance checks of `zfs_boot_read_label` (zfs_boot.cpp
lines 1112-1138): guid present and non-zero, pool_state present and
`<= POOL_STATE_L2CACHE`, and unless the state is SPARE or L2CACHE, a
present non-zero pool_txg. -/
def zfs_boot_label_accept (c : NvConfig) : Bool :=
  match c.guid with
  | none => false
  | some guid =>
    guid != 0 &&
    (match c.pool_state with
     | none => false
     | some state =>
       decide (state ≤ POOL_STATE_L2CACHE) &&
       (if state != POOL_STATE_SPARE && state != POOL_STATE_L2CACHE then
          match c.pool_txg with
          | none => false
          | some txg => txg != 0
        else true))

/-- The label loop of `zfs_boot_read_label` (zfs_boot.cpp lines
1062-1151): walk the label copies in order, skip unreadable/rejected
copies, keep the first accepted config and its guid as
`(expected_guid, expected_config)`, and count accepted copies whose guid
matches the expected one. -/
def zfs_boot_read_label_go (expected : Option (Nat × NvConfig)) (count : Nat) :
    List (Option NvConfig) → Option NvConfig × Nat
  | [] => (expected.map (fun e => e.2), count)
  | slot :: rest =>
    match slot with
    | none => zfs_boot_read_label_go expected count rest
    | some config =>
      if zfs_boot_label_accept config then
        match expected with
        | some (expected_guid, expected_config) =>
          zfs_boot_read_label_go (some (expected_guid, expected_config))
            (if expected_guid = config.guid.getD 0 then count + 1 else count) rest
        | none =>
          zfs_boot_read_label_go (some (config.guid.getD 0, config)) (count + 1) rest
      else zfs_boot_read_label_go expected count rest

/-- `zfs_boot_read_label` (zfs_boot.cpp lines 1008-1179).  `none` is the
`-1` error return (no media / zero size; the buffer-allocation and open
failures have no data content).  Otherwise returns
`(*config, *num_labels)` produced by the label loop over the device's
four label copies. -/
def zfs_boot_read_label (media : Device) : Option (Option NvConfig × Nat) :=
  if media.size = 0 then none
  else some (zfs_boot_read_label_go none 0 media.labels)

/-! ### Device watcher and prober -/

/-- The `pool_name` validation shared by `zfs_boot_probe_media` (lines
1214-1217) and `zfs_boot_probe_disk` (lines 1314-1317): the pointer must
be non-NULL and the string non-empty. -/
def poolNameValid : Option String → Bool
  | none => false
  | some s => s.length != 0

/-- `OSSet::setObject`: insert the device if not already present. -/
def osSetInsert (dev : Device) (disks : List Device) : List Device :=
  if dev ∈ disks then disks else dev :: disks

/-- `zfs_boot_probe_media` (zfs_boot.cpp lines 1186-1280): the device
arrival callback.  Returns the callback's boolean result and the updated
pool list (only the `disks` set can change).  The repeated `terminating`
tests of the source are kept; in this sequential model they see the same
value. -/
def zfs_boot_probe_media (pools : pool_list) (media : Device) : Bool × pool_list :=
  if pools.terminating ≠ ZFS_BOOT_ACTIVE then (false, pools)
  else if poolNameValid pools.pool_name = false then (false, pools)
  else if media.isLeaf = false then (true, pools)
  else if media.size < SPA_MINDEVSIZE then (true, pools)
  else if poolNameValid media.bsdName = false then (true, pools)
  else if pools.terminating ≠ ZFS_BOOT_ACTIVE then (true, pools)
  else if pools.terminating ≠ ZFS_BOOT_ACTIVE then (true, pools)
  else (true, { pools with disks := osSetInsert media pools.disks })

/-- The `/dev/<BSD name>` fallback path of `zfs_boot_probe_disk` (lines
1334-1354): `none` when the device has no (or an empty) BSD name. -/
def zfs_boot_bsd_path (media : Device) : Option String :=
  match media.bsdName with
  | some b => if b.length != 0 then some ("/dev/" ++ b) else none
  | none => none

/-- Path canonicalization in `zfs_boot_probe_disk` (lines 1319-1355):
prefer `/private/var/run/disk/by-id/media-<UUID>` when the media has a
non-empty UUID property, else `/dev/<BSD name>`. -/
def zfs_boot_device_path (media : Device) : Option String :=
  match media.uuid with
  | some u =>
    if u.length != 0 then some ("/private/var/run/disk/by-id/media-" ++ u)
    else zfs_boot_bsd_path media
  | none => zfs_boot_bsd_path media

/-- The matching test of `zfs_boot_probe_disk` (zfs_boot.cpp lines
1374-1392): when the target pool name is set AND the config carries a
pool name, compare the names; otherwise (and only then), when the target
pool guid is non-zero, compare the config's pool guid with it. -/
def zfs_boot_probe_match (pool_name : Option String) (pool_guid : Nat)
    (config : NvConfig) : Bool :=
  match pool_name, config.pool_name with
  | some target, some pname => target == pname
  | _, _ =>
    if pool_guid ≠ 0 then
      match config.pool_guid with
      | some this_guid => pool_guid == this_guid
      | none => false
    else false

/-- `zfs_boot_probe_disk` (zfs_boot.cpp lines 1287-1431): read the
device's labels, match the decoded config against the target pool name /
guid, and hand matches to `zfs_boot_add_config` with order 1 and the
label count.  Returns the source's boolean together with the updated
pool list. -/
def zfs_boot_probe_disk (pools : pool_list) (media : Device) : Bool × pool_list :=
  if pools.terminating ≠ ZFS_BOOT_ACTIVE then (false, pools)
  else if poolNameValid pools.pool_name = false then (false, pools)
  else
    match zfs_boot_device_path media with
    | none => (false, pools)
    | some path =>
      if pools.terminating ≠ ZFS_BOOT_ACTIVE then (false, pools)
      else
        match zfs_boot_read_label media with
        | none => (true, pools)
        | some (config?, num_labels) =>
          if num_labels = 0 then (true, pools)
          else
            match config? with
            | none => (true, pools)
            | some config =>
              if zfs_boot_probe_match pools.pool_name pools.pool_guid config then
                if pools.terminating ≠ ZFS_BOOT_ACTIVE then (true, pools)
                else (true, (zfs_boot_add_config pools path 1 num_labels config).2)
              else (true, pools)

/-! ### Path fixup: `zfs_boot_fix_paths` on a leaf vdev -/

/-- A leaf (file or disk) vdev nvlist as inspected by the leaf branch of
`zfs_boot_fix_paths`: `ZPOOL_CONFIG_GUID`, `ZPOOL_CONFIG_PATH`,
`ZPOOL_CONFIG_DEVID`. -/
structure LeafVdev where
  guid : Option Nat := none
  path : Option String := none
  devid : Option String := none
  deriving DecidableEq, Repr

/-- The candidate scan of `zfs_boot_fix_paths` (zfs_boot.cpp lines
228-271): walk the name entries carrying the current `best`; skip entries
with a different guid; with no config path take the first matching entry;
take an entry whose name equals the config path outright (the source
compares `strlen` equality plus `strncmp`, i.e. string equality); else
prefer more labels, then lower order, else keep the current best. -/
def zfs_boot_fix_paths_scan (guid : Nat) (path : Option String)
    (best : Option name_entry) : List name_entry → Option name_entry
  | [] => best
  | ne :: rest =>
    if ne.ne_guid = guid then
      match path with
      | none => some ne
      | some p =>
        if p = ne.ne_name then some ne
        else
          match best with
          | none => zfs_boot_fix_paths_scan guid path (some ne) rest
          | some b =>
            if b.ne_num_labels < ne.ne_num_labels then
              zfs_boot_fix_paths_scan guid path (some ne) rest
            else if ne.ne_num_labels = b.ne_num_labels ∧ ne.ne_order < b.ne_order then
              zfs_boot_fix_paths_scan guid path (some ne) rest
            else zfs_boot_fix_paths_scan guid path (some b) rest
    else zfs_boot_fix_paths_scan guid path best rest

/-- The leaf branch of `zfs_boot_fix_paths` (zfs_boot.cpp lines 224-289):
scan the names for the vdev's guid; if no best is found leave the vdev
alone; otherwise overwrite `ZPOOL_CONFIG_PATH` with the best name and,
since `zfs_boot_get_devid` is always NULL, remove `ZPOOL_CONFIG_DEVID`.
(The `verify`ed guid lookup is non-fatal in the source; a leaf without a
guid would scan with an uninitialized value, so the model leaves such a
leaf unchanged and the theorems require the guid to be present.) -/
def zfs_boot_fix_paths_leaf (nv : LeafVdev) (names : List name_entry) : LeafVdev :=
  match nv.guid with
  | none => nv
  | some guid =>
    match zfs_boot_fix_paths_scan guid nv.path none names with
    | none => nv
    | some best =>
      { nv with path := some best.ne_name,
                devid := zfs_boot_get_devid best.ne_name }

/-- Strict preference between two name entries, read off the replacement
conditions of the scan: more labels wins, then lower order. -/
def ne_better (a b : name_entry) : Bool :=
  decide (b.ne_num_labels < a.ne_num_labels) ||
    (a.ne_num_labels == b.ne_num_labels && decide (a.ne_order < b.ne_order))

/-- Modelled from the spec (§4.C "Path fixup"): among the candidates with
the vdev's guid, choose the one whose name equals the current path
exactly (short-circuit), else the best by more labels, then lower order,
then first encountered — i.e. the first candidate no candidate strictly
beats. -/
def zfs_boot_spec_choose (cands : List name_entry) (p : String) :
    Option name_entry :=
  match cands.find? (fun ne => ne.ne_name == p) with
  | some ne => some ne
  | none => cands.find? (fun x => cands.all (fun d => !ne_better d x))

/-! ### `zfs_boot_get_configs`: assembling the child array of one pool

The claim under examination (C3) covers the assembly of the top-level
child array (zfs_boot.cpp lines 588-725) and its normalization passes
(lines 734-754 truncate/extend, 764-795 holes, 804-822 missing).  The
pool-header seeding (lines 641-697), root-vdev wrap, path fixup and
`spa_tryimport` round-trip sit outside that claim and are not modelled.

The source grows the `child` array with `kmem_alloc`, which (unlike
`zfs_alloc` in the upstream `libzfs_import.c` this code was copied from)
does NOT zero the new memory: slots between the old length and the new
length hold whatever bytes the allocator returns.  The model makes that
explicit with a `junk` oracle giving the initial contents of slot `j`
the first time the array reaches it (`none` = the slot happens to be
NULL, `some v` = the garbage bytes read as a non-NULL nvlist pointer). -/

/-- Fresh (uninitialized) slots `from_`..`from_ + n - 1` as delivered by
`kmem_alloc` and described by the `junk` oracle. -/
def junkSlots (junk : Nat → Option VdevNode) (from_ n : Nat) :
    List (Option VdevNode) :=
  (List.range n).map (fun k => junk (from_ + k))

/-- `zfs_boot_vdev_is_hole` (zfs_boot.cpp lines 524-535): scan the hole
array for the vdev id. -/
def zfs_boot_vdev_is_hole (hole_array : List Nat) (id : Nat) : Bool :=
  hole_array.any (fun c => c == id)

/-- The best-config selection inside the vdev loop (zfs_boot.cpp lines
595-603): the config with the latest transaction group, the first such
on ties.  Returns `(best_txg, tmp)`; `tmp = none` only if no config has
`txg > 0`. -/
def zfs_boot_best_config (cfgs : List config_entry) : Nat × Option NvConfig :=
  cfgs.foldl
    (fun acc ce => if acc.1 < ce.ce_txg then (ce.ce_txg, some ce.ce_config) else acc)
    (0, none)

/-- The per-pool loop state of `zfs_boot_get_configs`: running maximum
txg, the `valid_top_config` / `max_id` / `hole_array` metadata taken from
the max-txg best config (lines 610-639), and the growing child array
(lines 707-723). -/
structure AssembleState where
  max_txg : Nat := 0
  valid_top_config : Bool := false
  max_id : Nat := 0
  holes : List Nat := []
  children : List (Option VdevNode) := []
  deriving Repr

/-- One iteration of the vdev loop of `zfs_boot_get_configs` (lines
588-725) for the child array: pick the best config, refresh the top-level
metadata when its txg beats the running maximum, then place a copy of its
`vdev_tree` at index `id`, growing the array with uninitialized slots as
needed.  (A `vdev_entry_t` with no positive-txg config, or a best config
with no `vdev_tree`, would make the source read an uninitialized pointer;
the model skips such entries and the theorems exclude them.) -/
def zfs_boot_assemble_step (junk : Nat → Option VdevNode)
    (st : AssembleState) (ve : vdev_entry) : AssembleState :=
  match zfs_boot_best_config ve.ve_configs with
  | (_, none) => st
  | (best_txg, some tmp) =>
    let st1 :=
      if st.max_txg < best_txg then
        { st with
          max_txg := best_txg,
          valid_top_config := tmp.vdev_children.isSome,
          max_id := tmp.vdev_children.getD 0,
          holes := tmp.hole_array.getD [] }
      else st
    match tmp.vdev_tree with
    | none => st1
    | some nvtop =>
      let grown :=
        if st1.children.length ≤ nvtop.id then
          st1.children ++
            junkSlots junk st1.children.length (nvtop.id + 1 - st1.children.length)
        else st1.children
      { st1 with children := grown.set nvtop.id (some nvtop) }

/-- The vdev loop of `zfs_boot_get_configs` over one pool's vdev entries. -/
def zfs_boot_assemble_children (junk : Nat → Option VdevNode)
    (vdevs : List vdev_entry) : AssembleState :=
  vdevs.foldl (zfs_boot_assemble_step junk) {}

/-- The synthetic hole vdev `{type: VDEV_TYPE_HOLE, id: c, guid: 0}`
(zfs_boot.cpp lines 774-793). -/
def mkHole (c : Nat) : VdevNode := ⟨"hole", c, 0⟩

/-- The synthetic missing vdev `{type: VDEV_TYPE_MISSING, id: c, guid: 0}`
(zfs_boot.cpp lines 806-820). -/
def mkMissing (c : Nat) : VdevNode := ⟨"missing", c, 0⟩

/-- The hole pass (zfs_boot.cpp lines 767-794): each NULL slot whose
index is in the hole array becomes a synthetic hole vdev.  `i` is the
index of the first slot. -/
def zfs_boot_fill_holes (holes : List Nat) (i : Nat) :
    List (Option VdevNode) → List (Option VdevNode)
  | [] => []
  | slot :: rest =>
    (match slot with
     | some v => some v
     | none => if zfs_boot_vdev_is_hole holes i then some (mkHole i) else none) ::
      zfs_boot_fill_holes holes (i + 1) rest

/-- The missing pass (zfs_boot.cpp lines 804-822): every still-NULL slot
becomes a synthetic missing vdev. -/
def zfs_boot_fill_missing (i : Nat) : List (Option VdevNode) → List VdevNode
  | [] => []
  | slot :: rest => slot.getD (mkMissing i) :: zfs_boot_fill_missing (i + 1) rest

/-- The normalization of one pool's child array in `zfs_boot_get_configs`
(lines 734-754, 764-795, 804-822): when `valid_top_config`, truncate to
`max_id` or extend with `kmem_alloc`ed (uninitialized, `junk`-valued)
slots up to `max_id`; then run the hole pass (guarded by `holes > 0`) and
the missing pass. -/
def zfs_boot_normalize_children (junk : Nat → Option VdevNode)
    (st : AssembleState) : List VdevNode :=
  let arr :=
    if st.valid_top_config then
      if st.max_id < st.children.length then st.children.take st.max_id
      else if st.children.length < st.max_id then
        st.children ++
          junkSlots junk st.children.length (st.max_id - st.children.length)
      else st.children
    else st.children
  let arr2 := if st.holes.length > 0 then zfs_boot_fill_holes st.holes 0 arr else arr
  zfs_boot_fill_missing 0 arr2

/-- The full child array one pool contributes to its configuration in
`zfs_boot_get_configs`: assembly followed by normalization. -/
def zfs_boot_pool_children (junk : Nat → Option VdevNode)
    (vdevs : List vdev_entry) : List VdevNode :=
  zfs_boot_normalize_children junk (zfs_boot_assemble_children junk vdevs)

/-! ### Boot argument reader and startup -/

/-- The boot arguments visible to `zfs_boot_check_mountroot` via
`PE_parse_boot_argn`: `none` = argument not present. -/
structure BootArgs where
  zfs_boot : Option String := none
  rd : Option String := none
  rootdev : Option String := none
  deriving DecidableEq, Repr

/-- The uptime threshold of `zfs_boot_check_mountroot` (zfs_boot.cpp line
1994): `7LLU<<33` nanoseconds, about 60 seconds. -/
def zfs_boot_uptime_threshold : Nat := 7 <<< 33

/-- The `rootdev` fallback of `zfs_boot_check_mountroot` (zfs_boot.cpp
lines 2025-2033): accepted if present, non-empty and not starting with
`zfs:` (`strncmp(..., "zfs:", 4)` non-zero). -/
def zfs_boot_pick_rootdev (args : BootArgs) : Option String :=
  match args.rootdev with
  | some s => if s.length > 0 && !s.startsWith "zfs:" then some s else none
  | none => none

/-- The `rd` fallback of `zfs_boot_check_mountroot` (zfs_boot.cpp lines
2016-2024), with the same `zfs:` exclusion, falling through to `rootdev`. -/
def zfs_boot_pick_rd (args : BootArgs) : Option String :=
  match args.rd with
  | some s =>
    if s.length > 0 && !s.startsWith "zfs:" then some s
    else zfs_boot_pick_rootdev args
  | none => zfs_boot_pick_rootdev args

/-- The argument-selection chain of `zfs_boot_check_mountroot`
(zfs_boot.cpp lines 2009-2033): `zfs_boot` if present and non-empty, else
`rd`, else `rootdev`. -/
def zfs_boot_pick_arg (args : BootArgs) : Option String :=
  match args.zfs_boot with
  | some s =>
    if s.length > 0 then some s
    else zfs_boot_pick_rd args
  | none => zfs_boot_pick_rd args

/-- `zfs_boot_check_mountroot` (zfs_boot.cpp lines 1961-2065): gate on
uptime before reading any boot argument, then pick a spec string and cut
the pool name at the first `/`.  The pool-guid boot argument is not
parsed (`*pool_guid = 0`, line 2038).  Returns `some (pool_name, 0)` for
the source's `true` with its out-parameters, `none` for `false`. -/
def zfs_boot_check_mountroot (uptime : Nat) (args : BootArgs) :
    Option (String × Nat) :=
  if zfs_boot_uptime_threshold ≤ uptime then none
  else
    match zfs_boot_pick_arg args with
    | some s => some (s.takeWhile (fun ch => ch ≠ '/'), 0)
    | none => none

/-- `zfs_boot_init` (zfs_boot.cpp lines 2067-2150): when the mountroot
check fails (or yields neither a name nor a guid) the function returns
without allocating a pool list, registering the arrival notifier or
dispatching the import worker — modelled as `none`.  Otherwise the fresh
`pool_list_t` it allocates and hands to the notifier and the worker. -/
def zfs_boot_init (uptime : Nat) (args : BootArgs) : Option pool_list :=
  match zfs_boot_check_mountroot uptime args with
  | none => none
  | some (pool_name, pool_guid) =>
    some { pools := [], names := [], pool_guid := pool_guid,
           pool_name := some pool_name, disks := [],
           terminating := ZFS_BOOT_ACTIVE }

/-! ### The published virtual boot device (`ZFSBootDevice`) -/

/-- The string properties of `ZFSBootDevice`. -/
structure ZFSBootDevice where
  vendorString : String
  productString : String
  revisionString : String
  additionalString : String
  deriving DecidableEq, Repr

/-- `ZFSBootDevice::init` (zfs_boot.cpp lines 2232-2260): vendor `ZFS`,
revision `1.0`, additional info `n/a`, product seeded as `invalid`. -/
def ZFSBootDevice_init : ZFSBootDevice :=
  { vendorString := "ZFS", productString := "invalid",
    revisionString := "1.0", additionalString := "n/a" }

/-- `ZFSBootDevice::setDatasetName` (zfs_boot.cpp lines 2393-2410):
reject names longer than `ZFS_MAX_DATASET_NAME_LEN`, else copy the
dataset name into the product string. -/
def ZFSBootDevice_setDatasetName (dev : ZFSBootDevice) (dsname : String) :
    Option ZFSBootDevice :=
  if ZFS_MAX_DATASET_NAME_LEN < dsname.length then none
  else some { dev with productString := dsname }

/-- The device construction step of `zfs_boot_publish_bootfs`
(zfs_boot.cpp lines 1581-1601): a fresh `ZFSBootDevice` whose product
string is the resolved bootfs dataset name. -/
def zfs_boot_publish_device (dsname : String) : Option ZFSBootDevice :=
  ZFSBootDevice_setDatasetName ZFSBootDevice_init dsname

/-- `ZFSBootDevice::reportBlockSize` (zfs_boot.cpp lines 2452-2460). -/
def ZFSBootDevice_reportBlockSize : Nat := ZFS_BOOT_DEV_BSIZE

/-- `ZFSBootDevice::reportMaxValidBlock` (zfs_boot.cpp lines 2478-2490):
`ZFS_BOOT_DEV_BCOUNT - 1`. -/
def ZFSBootDevice_reportMaxValidBlock : Nat := ZFS_BOOT_DEV_BCOUNT - 1

/-- `ZFSBootDevice::doGetFormatCapacities` (zfs_boot.cpp lines
2377-2391): the single reported capacity in bytes. -/
def ZFSBootDevice_capacity : Nat := ZFS_BOOT_DEV_BSIZE * ZFS_BOOT_DEV_BCOUNT

/-! ### Spec-side helper for the label-codec consensus rule -/

/-- Modelled from the spec (§4.B): the accepted label copies of a device,
in copy order. -/
def zfs_boot_accepted_labels (slots : List (Option NvConfig)) : List NvConfig :=
  slots.filterMap (fun slot =>
    match slot with
    | some c => if zfs_boot_label_accept c then some c else none
    | none => none)

/-! ## Claim theorems -/

/-- C7: the published virtual boot device does NOT have a block count of
2^29 blocks.  `ZFS_BOOT_DEV_BCOUNT` is `(2<<29)` = 2^30, although the
comment above the define ("count is 512 M blocks") and the claim both say
2^29: the maximum valid block index is 2^30 - 1 and the reported capacity
is 512 GiB, twice what the claim states.  The block size (512), vendor
(`ZFS`), revision (`1.0`) and product-string (dataset name) parts of the
claim do hold. -/
theorem zfs_boot_C7_bcount_mismatch :
    ZFS_BOOT_DEV_BSIZE = 512 ∧
    ZFS_BOOT_DEV_BCOUNT = 2 ^ 30 ∧
    ZFS_BOOT_DEV_BCOUNT ≠ 2 ^ 29 ∧
    ZFSBootDevice_reportBlockSize = 512 ∧
    ZFSBootDevice_reportMaxValidBlock = 2 ^ 30 - 1 ∧
    ZFSBootDevice_reportMaxValidBlock ≠ 2 ^ 29 - 1 ∧
    ZFSBootDevice_capacity = 512 * 2 ^ 30 ∧
    ZFSBootDevice_init.vendorString = "ZFS" ∧
    ZFSBootDevice_init.revisionString = "1.0" ∧
    zfs_boot_publish_device "rpool/ROOT/default" =
      some { vendorString := "ZFS", productString := "rpool/ROOT/default",
             revisionString := "1.0", additionalString := "n/a" } := by
  refine ⟨rfl, by decide, by decide, rfl, by decide, by decide, by decide, rfl, rfl, rfl⟩

/-- C9: whenever the uptime reaches the `7LLU<<33` ns (~60 s) threshold,
`zfs_boot_check_mountroot` returns false without consulting any boot
argument, and `zfs_boot_init` then creates no pool list, registers no
notifier and dispatches no worker. -/
theorem zfs_boot_C9_uptime_gate (uptime : Nat) (args : BootArgs)
    (h : zfs_boot_uptime_threshold ≤ uptime) :
    zfs_boot_check_mountroot uptime args = none ∧
    zfs_boot_init uptime args = none := by
  have h1 : zfs_boot_check_mountroot uptime args = none := by
    unfold zfs_boot_check_mountroot
    rw [if_pos h]
  refine ⟨h1, ?_⟩
  unfold zfs_boot_init
  rw [h1]

/-- Witness for C9 at uptime exactly the threshold with a `zfs_boot`
argument present. -/
theorem zfs_boot_C9_witness :
    zfs_boot_check_mountroot (7 <<< 33) { zfs_boot := some "tank" } = none ∧
    zfs_boot_init (7 <<< 33) { zfs_boot := some "tank" } = none :=
  zfs_boot_C9_uptime_gate (7 <<< 33) { zfs_boot := some "tank" } (by decide)

/-- C10: with a NULL or empty `pool_name`, the arrival callback
`zfs_boot_probe_media` returns false without touching the `disks` set,
and `zfs_boot_probe_disk` returns false without reading labels or adding
any config, regardless of `pool_guid`. -/
theorem zfs_boot_C10_pool_name_required (pools : pool_list) (media : Device)
    (h : pools.pool_name = none ∨ pools.pool_name = some "") :
    zfs_boot_probe_media pools media = (false, pools) ∧
    zfs_boot_probe_disk pools media = (false, pools) := by
  have hv : poolNameValid pools.pool_name = false := by
    rcases h with h | h <;> rw [h] <;> rfl
  constructor
  · unfold zfs_boot_probe_media
    by_cases ht : pools.terminating ≠ ZFS_BOOT_ACTIVE <;> simp [ht, hv]
  · unfold zfs_boot_probe_disk
    by_cases ht : pools.terminating ≠ ZFS_BOOT_ACTIVE <;> simp [ht, hv]

/-- Witness for C10: a boot attempt configured only by pool GUID (name
NULL, guid 42) probes nothing. -/
theorem zfs_boot_C10_witness :
    zfs_boot_probe_media { pool_guid := 42 } { size := SPA_MINDEVSIZE } =
      (false, { pool_guid := 42 }) ∧
    zfs_boot_probe_disk { pool_guid := 42 } { size := SPA_MINDEVSIZE } =
      (false, { pool_guid := 42 }) :=
  zfs_boot_C10_pool_name_required { pool_guid := 42 } { size := SPA_MINDEVSIZE }
    (Or.inl rfl)

/-- C5: a non-spare/l2cache config missing `pool_guid`, `guid`,
`top_guid` or `pool_txg`, or with `pool_txg = 0`, is silently dropped by
`zfs_boot_add_config`: success (0) is returned and the aggregation tree
is left completely unchanged (no pool, vdev, config or name entry). -/
theorem zfs_boot_C5_incomplete_dropped (pl : pool_list) (path : String)
    (order num_labels : Nat) (config : NvConfig)
    (hstate : ∀ s, config.pool_state = some s →
      s ≠ POOL_STATE_SPARE ∧ s ≠ POOL_STATE_L2CACHE)
    (hmiss : config.pool_guid = none ∨ config.guid = none ∨
      config.top_guid = none ∨ config.pool_txg = none ∨
      config.pool_txg = some 0) :
    zfs_boot_add_config pl path order num_labels config = (0, pl) := by
  have hsp : zfs_boot_spare_case config = false := by
    unfold zfs_boot_spare_case
    cases hps : config.pool_state with
    | none => rfl
    | some s =>
      obtain ⟨h1, h2⟩ := hstate s hps
      simp [h1, h2]
  unfold zfs_boot_add_config
  rw [hsp]
  simp only [Bool.false_eq_true, if_false]
  cases hpg : config.pool_guid <;> cases hgu : config.guid <;>
    cases htg : config.top_guid <;> cases htx : config.pool_txg <;>
    simp_all

/-- Witness for C5: a config with no `top_guid` leaves an arbitrary tree
untouched. -/
theorem zfs_boot_C5_witness :
    zfs_boot_add_config { pool_name := some "tank" } "/dev/disk2" 1 4
      { pool_guid := some 1, guid := some 2, pool_txg := some 3,
        pool_state := some 0 } = (0, { pool_name := some "tank" }) :=
  zfs_boot_C5_incomplete_dropped { pool_name := some "tank" } "/dev/disk2" 1 4
    { pool_guid := some 1, guid := some 2, pool_txg := some 3,
      pool_state := some 0 }
    (fun s hs => by injection hs with h; subst h; exact ⟨by decide, by decide⟩)
    (Or.inr (Or.inr (Or.inl rfl)))

/-- C8: for every device size and label index `l < 4`, the byte offset
`zfs_boot_read_label` reads copy `l` from is `l * labelsize` for the two
front copies and `size_aligned - (4 - l) * labelsize` for the two back
copies, where `size_aligned` is the device size rounded down to a label
multiple (all in wrapping 64-bit arithmetic). -/
theorem zfs_boot_C8_label_offsets (mediaSize l : Nat) (hl : l < 4) :
    zfs_boot_read_offset mediaSize l =
      if l < 2 then l * vdev_label_size
      else sub64 (mediaSize - mediaSize % vdev_label_size)
        ((4 - l) * vdev_label_size) := by
  have h64 : u64Mod = 18446744073709551616 := by norm_num [u64Mod]
  unfold zfs_boot_read_offset zfs_boot_label_offset p2align sub64 VDEV_LABELS
  interval_cases l
  · norm_num [vdev_label_size, h64]
  · norm_num [vdev_label_size, h64]
  · rw [if_neg (by norm_num : ¬(2:Nat) < 4 / 2), if_neg (by norm_num : ¬(2:Nat) < 2),
      Nat.add_mod_mod, h64]
    norm_num [vdev_label_size]
    omega
  · rw [if_neg (by norm_num : ¬(3:Nat) < 4 / 2), if_neg (by norm_num : ¬(3:Nat) < 2),
      Nat.add_mod_mod, h64]
    norm_num [vdev_label_size]
    omega

/-- Witness for C8 at `l = 3` on a 1 GB + 1000 byte device. -/
theorem zfs_boot_C8_witness :
    zfs_boot_read_offset 1000001000 3 =
      sub64 (1000001000 - 1000001000 % vdev_label_size)
        ((4 - 3) * vdev_label_size) := by
  have h := zfs_boot_C8_label_offsets 1000001000 3 (by decide)
  simpa using h

/-- Helper for C2: once an expected guid/config pair is locked in, the
label loop returns that config and adds one count per accepted copy with
the expected guid. -/
theorem zfs_boot_read_label_go_locked (eg : Nat) (ec : NvConfig) :
    ∀ (slots : List (Option NvConfig)) (count : Nat),
    zfs_boot_read_label_go (some (eg, ec)) count slots =
      (some ec, count + (zfs_boot_accepted_labels slots).countP
        (fun c => eg == c.guid.getD 0)) := by
  intro slots
  induction slots with
  | nil =>
    intro count
    simp [zfs_boot_read_label_go, zfs_boot_accepted_labels]
  | cons slot rest ih =>
    intro count
    cases slot with
    | none =>
      simp [zfs_boot_read_label_go, zfs_boot_accepted_labels,
        List.filterMap_cons, ih]
    | some c =>
      by_cases hacc : zfs_boot_label_accept c = true
      · by_cases heg : eg = c.guid.getD 0
        · subst heg
          simp [zfs_boot_read_label_go, hacc, ih,
            zfs_boot_accepted_labels, List.filterMap_cons, List.countP_cons]
          omega
        · simp [zfs_boot_read_label_go, hacc, heg, ih,
            zfs_boot_accepted_labels, List.filterMap_cons, List.countP_cons]
      · simp [zfs_boot_read_label_go, hacc, ih,
          zfs_boot_accepted_labels, List.filterMap_cons]

/-- Helper for C2: the label loop from the initial state returns the
first accepted copy's config together with the number of accepted copies
sharing the first accepted copy's guid. -/
theorem zfs_boot_read_label_go_spec (slots : List (Option NvConfig)) :
    zfs_boot_read_label_go none 0 slots =
      (match zfs_boot_accepted_labels slots with
       | [] => (none, 0)
       | a :: rest =>
         (some a, 1 + rest.countP (fun c => a.guid.getD 0 == c.guid.getD 0))) := by
  induction slots with
  | nil => simp [zfs_boot_read_label_go, zfs_boot_accepted_labels]
  | cons slot rest ih =>
    cases slot with
    | none =>
      simp [zfs_boot_read_label_go, zfs_boot_accepted_labels,
        List.filterMap_cons] at ih ⊢
      exact ih
    | some c =>
      by_cases hacc : zfs_boot_label_accept c = true
      · simp [zfs_boot_read_label_go, hacc, zfs_boot_accepted_labels,
          List.filterMap_cons, zfs_boot_read_label_go_locked]
      · simp [zfs_boot_read_label_go, hacc, zfs_boot_accepted_labels,
          List.filterMap_cons] at ih ⊢
        exact ih

/-- C2: for every device of non-zero size, `zfs_boot_read_label` returns
the config decoded from the first accepted label copy (copies consulted
in order 0..3, acceptance per `zfs_boot_label_accept`), and the returned
label count is the number of accepted copies whose guid equals the first
accepted copy's guid — accepted copies with a different guid neither
increment nor reset the counter. -/
theorem zfs_boot_C2_read_label_consensus (media : Device)
    (h : media.size ≠ 0) :
    zfs_boot_read_label media =
      some (match zfs_boot_accepted_labels media.labels with
            | [] => (none, 0)
            | a :: rest =>
              (some a, 1 + rest.countP
                (fun c => a.guid.getD 0 == c.guid.getD 0))) := by
  unfold zfs_boot_read_label
  rw [if_neg h, zfs_boot_read_label_go_spec]

/-- Witness for C2: the spec's scenario S2 — copies
{valid guid 10, zeroed, valid guid 20, valid guid 10} yield copy 0's
config with label count 2. -/
theorem zfs_boot_C2_witness :
    zfs_boot_read_label
      { size := SPA_MINDEVSIZE,
        labels := [
          some { pool_guid := some 1, pool_state := some 0,
                 pool_txg := some 7, guid := some 10 },
          none,
          some { pool_guid := some 1, pool_state := some 0,
                 pool_txg := some 7, guid := some 20 },
          some { pool_guid := some 1, pool_state := some 0,
                 pool_txg := some 7, guid := some 10 }] } =
      some (some { pool_guid := some 1, pool_state := some 0,
                   pool_txg := some 7, guid := some 10 }, 2) := by
  rw [zfs_boot_C2_read_label_consensus _ (by decide)]
  decide

/-- Helper: `applyFirst` is the identity when the function fixes the
first match. -/
theorem applyFirst_eq_self (p : α → Bool) (f : α → α) :
    ∀ (l : List α), (∀ x, l.find? p = some x → f x = x) → applyFirst p f l = l := by
  intro l
  induction l with
  | nil => intro _; rfl
  | cons x rest ih =>
    intro h
    by_cases hx : p x = true
    · rw [applyFirst, if_pos hx, h x (List.find?_cons_of_pos _ hx)]
    · rw [applyFirst, if_neg hx]
      rw [ih (fun y hy => h y (by rw [List.find?_cons_of_neg _ hx]; exact hy))]

/-- Helper: members of `applyFirst p f l` are members of `l` or images of
members of `l` under `f`. -/
theorem mem_applyFirst (p : α → Bool) (f : α → α) :
    ∀ (l : List α) (y : α), y ∈ applyFirst p f l →
      y ∈ l ∨ ∃ x ∈ l, y = f x := by
  intro l
  induction l with
  | nil => intro y hy; exact absurd hy (List.not_mem_nil y)
  | cons x rest ih =>
    intro y hy
    by_cases hx : p x = true
    · rw [applyFirst, if_pos hx] at hy
      rcases List.mem_cons.mp hy with rfl | hy2
      · exact Or.inr ⟨x, List.mem_cons_self x rest, rfl⟩
      · exact Or.inl (List.mem_cons_of_mem x hy2)
    · rw [applyFirst, if_neg hx] at hy
      rcases List.mem_cons.mp hy with rfl | hy2
      · exact Or.inl (List.mem_cons_self y rest)
      · rcases ih y hy2 with h | ⟨x2, hx2, rfl⟩
        · exact Or.inl (List.mem_cons_of_mem x h)
        · exact Or.inr ⟨x2, List.mem_cons_of_mem x hx2, rfl⟩

/-- Helper: inserting a config preserves txg uniqueness within the entry
list. -/
theorem zfs_boot_insert_config_nodup (cfgs : List config_entry) (txg : Nat)
    (config : NvConfig) (h : (cfgs.map config_entry.ce_txg).Nodup) :
    ((zfs_boot_insert_config cfgs txg config).map config_entry.ce_txg).Nodup := by
  unfold zfs_boot_insert_config
  by_cases hany : cfgs.any (fun ce => ce.ce_txg == txg) = true
  · rw [if_pos hany]; exact h
  · rw [if_neg hany]
    simp only [List.map_cons, List.nodup_cons]
    refine ⟨?_, h⟩
    simp only [List.mem_map, not_exists, not_and]
    intro ce hce hee
    rw [List.any_eq_true] at hany
    exact hany ⟨ce, hce, by simp [hee]⟩

/-- Helper: inserting a vdev/config preserves txg uniqueness across the
vdev list. -/
theorem zfs_boot_insert_vdev_nodup (ves : List vdev_entry)
    (top_guid txg : Nat) (config : NvConfig)
    (h : ∀ ve ∈ ves, (ve.ve_configs.map config_entry.ce_txg).Nodup) :
    ∀ ve ∈ zfs_boot_insert_vdev ves top_guid txg config,
      (ve.ve_configs.map config_entry.ce_txg).Nodup := by
  unfold zfs_boot_insert_vdev
  by_cases hany : ves.any (fun ve => ve.ve_guid == top_guid) = true
  · rw [if_pos hany]
    intro ve hve
    rcases mem_applyFirst _ _ ves ve hve with hin | ⟨x, hx, rfl⟩
    · exact h ve hin
    · exact zfs_boot_insert_config_nodup _ _ _ (h x hx)
  · rw [if_neg hany]
    intro ve hve
    rcases List.mem_cons.mp hve with rfl | hin
    · exact zfs_boot_insert_config_nodup [] txg config (by simp)
    · exact h ve hin

/-- Helper: inserting into the pool list preserves txg uniqueness
everywhere. -/
theorem zfs_boot_insert_pool_nodup (pools : List pool_entry)
    (pool_guid top_guid txg : Nat) (config : NvConfig)
    (h : ∀ pe ∈ pools, ∀ ve ∈ pe.pe_vdevs,
      (ve.ve_configs.map config_entry.ce_txg).Nodup) :
    ∀ pe ∈ zfs_boot_insert_pool pools pool_guid top_guid txg config,
      ∀ ve ∈ pe.pe_vdevs, (ve.ve_configs.map config_entry.ce_txg).Nodup := by
  unfold zfs_boot_insert_pool
  by_cases hany : pools.any (fun pe => pe.pe_guid == pool_guid) = true
  · rw [if_pos hany]
    intro pe hpe
    rcases mem_applyFirst _ _ pools pe hpe with hin | ⟨x, hx, rfl⟩
    · exact h pe hin
    · exact zfs_boot_insert_vdev_nodup _ _ _ _ (h x hx)
  · rw [if_neg hany]
    intro pe hpe
    rcases List.mem_cons.mp hpe with rfl | hin
    · exact zfs_boot_insert_vdev_nodup [] top_guid txg config (by simp)
    · exact h pe hin

/-- Helper: the equation `zfs_boot_add_config` satisfies on a complete
non-spare config. -/
theorem zfs_boot_add_config_eq_insert (pl : pool_list) (path : String)
    (order num_labels : Nat) (config : NvConfig) (pg vg tg txg : Nat)
    (hsp : zfs_boot_spare_case config = false)
    (hpg : config.pool_guid = some pg) (hgu : config.guid = some vg)
    (htg : config.top_guid = some tg) (htx : config.pool_txg = some txg)
    (htxz : txg ≠ 0) :
    zfs_boot_add_config pl path order num_labels config =
      (0, { pl with
        pools := zfs_boot_insert_pool pl.pools pg tg txg config,
        names := ⟨path, vg, order, num_labels⟩ :: pl.names }) := by
  unfold zfs_boot_add_config
  rw [hsp]
  simp only [Bool.false_eq_true, if_false, hpg, hgu, htg, htx, if_neg htxz]

/-- Helper: one `zfs_boot_add_config` call preserves the invariant. -/
theorem zfs_boot_add_config_nodup (pl : pool_list) (path : String)
    (order num_labels : Nat) (config : NvConfig) (h : vdev_txgs_nodup pl) :
    vdev_txgs_nodup (zfs_boot_add_config pl path order num_labels config).2 := by
  unfold zfs_boot_add_config
  by_cases hsp : zfs_boot_spare_case config = true
  · rw [if_pos hsp]; exact h
  · have hsp' : zfs_boot_spare_case config = false := by
      cases hx : zfs_boot_spare_case config
      · rfl
      · exact absurd hx hsp
    rw [hsp']
    simp only [Bool.false_eq_true, if_false]
    cases hpg : config.pool_guid with
    | none => exact h
    | some pool_guid =>
      cases hgu : config.guid with
      | none => exact h
      | some vdev_guid =>
        cases htg : config.top_guid with
        | none => exact h
        | some top_guid =>
          cases htx : config.pool_txg with
          | none => exact h
          | some txg =>
            by_cases htxz : txg = 0
            · simp only [if_pos htxz]; exact h
            · simp only [if_neg htxz]
              exact zfs_boot_insert_pool_nodup pl.pools pool_guid top_guid txg config h

/-- Helper: the invariant holds along any replayed call sequence. -/
theorem zfs_boot_run_nodup_from (calls : List AddCall) :
    ∀ (pl : pool_list), vdev_txgs_nodup pl →
      vdev_txgs_nodup (calls.foldl
        (fun pl c => (zfs_boot_add_config pl c.path c.order c.num_labels c.config).2) pl) := by
  induction calls with
  | nil => intro pl h; exact h
  | cons c rest ih =>
    intro pl h
    exact ih _ (zfs_boot_add_config_nodup pl c.path c.order c.num_labels c.config h)

/-- C4: (1) on every state reachable by a sequence of
`zfs_boot_add_config` calls from the empty tree, no two config entries of
a vdev entry share a txg; (2) when `zfs_boot_add_config` receives a
complete config whose `(pool_guid, top_guid, txg)` already has a config
entry, the aggregation tree is unchanged (the existing entry wins, the
new config is freed) and only a name entry is prepended. -/
theorem zfs_boot_C4_txg_first_wins :
    (∀ calls : List AddCall, vdev_txgs_nodup (zfs_boot_run calls)) ∧
    (∀ (pl : pool_list) (path : String) (order num_labels : Nat)
       (config : NvConfig) (pg vg tg txg : Nat)
       (pe : pool_entry) (ve : vdev_entry),
       zfs_boot_spare_case config = false →
       config.pool_guid = some pg → config.guid = some vg →
       config.top_guid = some tg → config.pool_txg = some txg → txg ≠ 0 →
       pl.pools.find? (fun x => x.pe_guid == pg) = some pe →
       pe.pe_vdevs.find? (fun x => x.ve_guid == tg) = some ve →
       ve.ve_configs.any (fun ce => ce.ce_txg == txg) = true →
       (zfs_boot_add_config pl path order num_labels config).2.pools = pl.pools ∧
       (zfs_boot_add_config pl path order num_labels config).2.names =
         ⟨path, vg, order, num_labels⟩ :: pl.names) := by
  constructor
  · intro calls
    apply zfs_boot_run_nodup_from
    intro pe hpe
    exact absurd hpe (List.not_mem_nil pe)
  · intro pl path order num_labels config pg vg tg txg pe ve
    intro hsp hpg hgu htg htx htxz hfpe hfve hany
    have hpools : zfs_boot_insert_pool pl.pools pg tg txg config = pl.pools := by
      unfold zfs_boot_insert_pool
      rw [if_pos (List.any_eq_true.mpr
        ⟨pe, List.mem_of_find?_eq_some hfpe, List.find?_some hfpe⟩)]
      apply applyFirst_eq_self
      intro x hx
      rw [hfpe] at hx
      injection hx with hx
      subst hx
      show { pe with pe_vdevs := zfs_boot_insert_vdev pe.pe_vdevs tg txg config } = pe
      have hvdevs : zfs_boot_insert_vdev pe.pe_vdevs tg txg config = pe.pe_vdevs := by
        unfold zfs_boot_insert_vdev
        rw [if_pos (List.any_eq_true.mpr
          ⟨ve, List.mem_of_find?_eq_some hfve, List.find?_some hfve⟩)]
        apply applyFirst_eq_self
        intro y hy
        rw [hfve] at hy
        injection hy with hy
        subst hy
        show { ve with ve_configs := zfs_boot_insert_config ve.ve_configs txg config } = ve
        have hconfigs : zfs_boot_insert_config ve.ve_configs txg config = ve.ve_configs := by
          unfold zfs_boot_insert_config
          rw [if_pos hany]
        rw [hconfigs]
      rw [hvdevs]
    rw [zfs_boot_add_config_eq_insert pl path order num_labels config pg vg tg txg
      hsp hpg hgu htg htx htxz]
    exact ⟨hpools, rfl⟩

/-- The older config already aggregated in the C4 witness tree. -/
def cfgC4_old : NvConfig :=
  { pool_guid := some 1, guid := some 9, top_guid := some 2,
    pool_txg := some 3, pool_state := some 0 }

/-- A later duplicate for the same `(pool_guid, top_guid, txg)`. -/
def cfgC4_dup : NvConfig :=
  { pool_guid := some 1, guid := some 4, top_guid := some 2,
    pool_txg := some 3, pool_state := some 0 }

/-- The vdev entry already holding txg 3. -/
def veC4 : vdev_entry := ⟨2, [⟨3, cfgC4_old⟩]⟩

/-- The pool entry holding that vdev. -/
def peC4 : pool_entry := ⟨1, [veC4]⟩

/-- The aggregation tree before the duplicate arrives. -/
def plC4 : pool_list := { pools := [peC4] }

/-- Witness for C4: adding a duplicate-txg config leaves the tree
unchanged and only prepends a name entry. -/
theorem zfs_boot_C4_witness :
    (zfs_boot_add_config plC4 "/dev/disk3" 1 4 cfgC4_dup).2.pools = plC4.pools ∧
    (zfs_boot_add_config plC4 "/dev/disk3" 1 4 cfgC4_dup).2.names =
      ⟨"/dev/disk3", 4, 1, 4⟩ :: plC4.names :=
  zfs_boot_C4_txg_first_wins.2 plC4 "/dev/disk3" 1 4 cfgC4_dup 1 4 2 3 peC4 veC4
    (by decide) rfl rfl rfl rfl (by decide) rfl rfl (by decide)

/-- The target state of the C1 counterexample: booting with pool name
`tank` and (hypothetically parsed) pool guid 5. -/
def plC1 : pool_list := { pool_name := some "tank", pool_guid := 5 }

/-- A decoded config whose pool name differs from the target but whose
pool guid matches it. -/
def cfgC1 : NvConfig :=
  { pool_guid := some 5, pool_name := some "pond", pool_state := some 0,
    pool_txg := some 10, guid := some 7, top_guid := some 7 }

/-- A device carrying `cfgC1` in its first label copy. -/
def devC1 : Device :=
  { bsdName := some "disk1", size := SPA_MINDEVSIZE, isLeaf := true,
    labels := [some cfgC1, none, none, none] }

/-- C1 counterexample: with the target pool name set to `tank` and the
target pool guid 5 non-zero, a probed device whose decoded config carries
pool name `pond` and pool guid 5 is NOT matched — the guid fallback of
`zfs_boot_probe_disk` is never consulted when the config carries a pool
name, so the config is freed and no `add_config` call is made, contrary
to the claim's "the config is still matched whenever pool_guid != 0 and
the config's pool_guid equals it". -/
theorem zfs_boot_C1_counterexample :
    plC1.pool_name = some "tank" ∧ plC1.pool_guid = 5 ∧ (5 : Nat) ≠ 0 ∧
    cfgC1.pool_name = some "pond" ∧ cfgC1.pool_guid = some 5 ∧
    zfs_boot_probe_match plC1.pool_name plC1.pool_guid cfgC1 = false ∧
    zfs_boot_read_label devC1 = some (some cfgC1, 1) ∧
    zfs_boot_probe_disk plC1 devC1 = (true, plC1) ∧
    (zfs_boot_probe_disk plC1 devC1).2.pools = [] := by
  refine ⟨rfl, rfl, by decide, rfl, rfl, by decide, by decide, by decide, by decide⟩

/-- C1 (amended): in `zfs_boot_probe_disk`, once a device's labels are
read successfully, the decoded config is matched by name when the target
pool name is set and the config carries a pool name (equality of the two
strings); the guid fallback (`pool_guid != 0` and equal pool guids)
applies only when the config carries no pool name; every matched config
is passed to `zfs_boot_add_config` with order 1 and the device's label
count, and a non-matching config is freed with the device skipped. -/
theorem zfs_boot_C1_match_amended (pools : pool_list) (media : Device)
    (config : NvConfig) (num_labels : Nat) (path : String)
    (hterm : pools.terminating = ZFS_BOOT_ACTIVE)
    (hname : poolNameValid pools.pool_name = true)
    (hpath : zfs_boot_device_path media = some path)
    (hread : zfs_boot_read_label media = some (some config, num_labels))
    (hn : num_labels ≠ 0) :
    zfs_boot_probe_disk pools media =
      (true,
        if zfs_boot_probe_match pools.pool_name pools.pool_guid config then
          (zfs_boot_add_config pools path 1 num_labels config).2
        else pools) ∧
    (∀ target pname, pools.pool_name = some target →
      config.pool_name = some pname →
      (zfs_boot_probe_match pools.pool_name pools.pool_guid config = true ↔
        target = pname)) ∧
    (config.pool_name = none →
      (zfs_boot_probe_match pools.pool_name pools.pool_guid config = true ↔
        pools.pool_guid ≠ 0 ∧ config.pool_guid = some pools.pool_guid)) := by
  refine ⟨?_, ?_, ?_⟩
  · unfold zfs_boot_probe_disk
    rw [hterm]
    simp only [ne_eq, not_true_eq_false, if_false, hname, Bool.true_eq_false,
      hpath, hread, if_neg hn]
    by_cases hm : zfs_boot_probe_match pools.pool_name pools.pool_guid config = true
    · simp [hm]
    · simp [hm]
  · intro target pname htarget hpname
    unfold zfs_boot_probe_match
    rw [htarget, hpname]
    simp
  · intro hnone
    unfold zfs_boot_probe_match
    rw [hnone]
    cases hpn : pools.pool_name <;> cases hcg : config.pool_guid <;>
      by_cases hg : pools.pool_guid = 0 <;>
      simp [hg, hcg] <;> omega

/-- Target state for the C1 witness: pool name `tank`, no guid. -/
def plC1w : pool_list := { pool_name := some "tank" }

/-- A config whose pool name matches the target. -/
def cfgC1w : NvConfig :=
  { pool_guid := some 9, pool_name := some "tank", pool_state := some 0,
    pool_txg := some 12, guid := some 3, top_guid := some 3 }

/-- A device carrying `cfgC1w` in its first label copy. -/
def devC1w : Device :=
  { bsdName := some "disk2", size := SPA_MINDEVSIZE, isLeaf := true,
    labels := [some cfgC1w, none, none, none] }

/-- Witness for the amended C1 on a concrete matching device. -/
theorem zfs_boot_C1_witness :
    zfs_boot_probe_disk plC1w devC1w =
      (true,
        if zfs_boot_probe_match plC1w.pool_name plC1w.pool_guid cfgC1w then
          (zfs_boot_add_config plC1w "/dev/disk2" 1 1 cfgC1w).2
        else plC1w) :=
  (zfs_boot_C1_match_amended plC1w devC1w cfgC1w 1 "/dev/disk2" rfl (by decide)
    (by decide) (by decide) (by decide)).1

/-- The single best config of the C3 pool: one top-level vdev with id 0
whose label claims `vdev_children = 3` and a hole at index 1. -/
def cfgC3 : NvConfig :=
  { pool_guid := some 77, pool_name := some "pond", pool_state := some 0,
    pool_txg := some 5, guid := some 11, top_guid := some 11,
    vdev_children := some 3, hole_array := some [1],
    vdev_tree := some ⟨"disk", 0, 11⟩ }

/-- Garbage contents for uninitialized `kmem_alloc` slots: non-NULL
pointers to arbitrary nvlists. -/
def junkC3 : Nat → Option VdevNode := fun j => some ⟨"garbage", j, 99⟩

/-- C3: evaluation of the child-array normalization at a pool that needs
the array extended to `vdev_children = 3`.  The source extends `child[]`
with `kmem_alloc` (which does not zero, unlike `zfs_alloc` in the
upstream `libzfs_import.c` this code was copied from — every other
`kmem_alloc` in zfs_boot.cpp is followed by an explicit `bzero`), so the
hole/missing passes test `child[c] == NULL` on uninitialized memory:
with non-NULL garbage in slots 1 and 2 the garbage is kept as real
children, where the claim requires `{type: hole, id: 1}` and
`{type: missing, id: 2}`.  Only if the fresh slots happen to be zeroed
(`junk = none`) does the claimed normalization hold. -/
theorem zfs_boot_C3_uninit_children :
    zfs_boot_pool_children junkC3 [⟨11, [⟨5, cfgC3⟩]⟩] =
      [⟨"disk", 0, 11⟩, ⟨"garbage", 1, 99⟩, ⟨"garbage", 2, 99⟩] ∧
    zfs_boot_pool_children (fun _ => none) [⟨11, [⟨5, cfgC3⟩]⟩] =
      [⟨"disk", 0, 11⟩, mkHole 1, mkMissing 2] ∧
    (⟨"garbage", 1, 99⟩ : VdevNode) ≠ mkHole 1 ∧
    (⟨"garbage", 2, 99⟩ : VdevNode) ≠ mkMissing 2 := by
  refine ⟨by decide, by decide, by decide, by decide⟩

/-- Helper (C6): the Bool preference as a disjunction. -/
theorem ne_better_iff (a b : name_entry) :
    ne_better a b = true ↔
      b.ne_num_labels < a.ne_num_labels ∨
        (a.ne_num_labels = b.ne_num_labels ∧ a.ne_order < b.ne_order) := by
  simp [ne_better]

/-- Helper (C6): negated form. -/
theorem ne_better_eq_false_iff (a b : name_entry) :
    ne_better a b = false ↔
      ¬(b.ne_num_labels < a.ne_num_labels ∨
        (a.ne_num_labels = b.ne_num_labels ∧ a.ne_order < b.ne_order)) := by
  rw [← Bool.not_eq_true, ne_better_iff]

/-- Helper (C6): no entry strictly beats itself. -/
theorem ne_better_irrefl (a : name_entry) : ne_better a a = false := by
  rw [ne_better_eq_false_iff]; omega

/-- Helper (C6): the preference is transitive. -/
theorem ne_better_trans {a b c : name_entry} (h1 : ne_better a b = true)
    (h2 : ne_better b c = true) : ne_better a c = true := by
  rw [ne_better_iff] at h1 h2 ⊢; omega

/-- Helper (C6): a non-beaten entry inherits wins over third parties. -/
theorem ne_better_cross {c b x : name_entry} (h1 : ne_better c b = false)
    (h2 : ne_better c x = true) : ne_better b x = true := by
  rw [ne_better_eq_false_iff] at h1; rw [ne_better_iff] at h2 ⊢; omega

/-- Helper (C6): mutually non-beating entries beat the same entries. -/
theorem ne_better_congr (w : name_entry) {c b : name_entry}
    (h1 : ne_better c b = false) (h2 : ne_better b c = false) :
    ne_better w b = ne_better w c := by
  rw [ne_better_eq_false_iff] at h1 h2
  have hl : b.ne_num_labels = c.ne_num_labels := by omega
  have ho : b.ne_order = c.ne_order := by omega
  simp [ne_better, hl, ho]

/-- Helper (C6): `find?` only depends on the predicate's values on the
list. -/
theorem find?_pred_congr {α : Type} {p q : α → Bool} :
    ∀ {l : List α}, (∀ x ∈ l, p x = q x) → l.find? p = l.find? q := by
  intro l
  induction l with
  | nil => intro _; rfl
  | cons x rest ih =>
    intro h
    by_cases hx : p x = true
    · rw [List.find?_cons_of_pos _ hx, List.find?_cons_of_pos _
        (by rw [← h x (List.mem_cons_self x rest)]; exact hx)]
    · have hq : ¬q x = true := by
        rw [← h x (List.mem_cons_self x rest)]; exact hx
      rw [List.find?_cons_of_neg _ hx, List.find?_cons_of_neg _ hq,
        ih (fun y hy => h y (List.mem_cons_of_mem x hy))]

/-- Helper (C6): Boolean absorption on the left conjunct. -/
theorem band_absorb_right (a x : Bool) (h : x = true → a = true) :
    (a && x) = x := by
  cases x
  · simp
  · simp [h rfl]

/-- Helper (C6): Boolean absorption of a middle conjunct. -/
theorem band_absorb_middle (a c x : Bool) (h : a = true → x = true → c = true) :
    (a && (c && x)) = (a && x) := by
  cases a
  · simp
  · cases x
    · simp
    · simp [h rfl rfl]

/-- Helper (C6): peel a head that some entry of `full` strictly beats. -/
theorem findOpt_peel (a : name_entry) (l full : List name_entry)
    (h : (full.all (fun d => !ne_better d a)) = false) :
    List.find? (fun x => full.all (fun d => !ne_better d x)) (a :: l) =
      List.find? (fun x => full.all (fun d => !ne_better d x)) l := by
  apply List.find?_cons_of_neg
  simp [h]

/-- Helper (C6): keep a head that no entry of `full` strictly beats. -/
theorem findOpt_keep (a : name_entry) (l full : List name_entry)
    (h : (full.all (fun d => !ne_better d a)) = true) :
    List.find? (fun x => full.all (fun d => !ne_better d x)) (a :: l) = some a := by
  apply List.find?_cons_of_pos
  show (full.all (fun d => !ne_better d a)) = true
  exact h

/-- Helper (C6): dropping the loser of the head comparison does not
change the first entry that no entry strictly beats. -/
theorem findOpt_cons_cons (b c : name_entry) (l : List name_entry) :
    (b :: c :: l).find? (fun x => (b :: c :: l).all (fun d => !ne_better d x)) =
      ((if ne_better c b then c else b) :: l).find?
        (fun x => ((if ne_better c b then c else b) :: l).all
          (fun d => !ne_better d x)) := by
  by_cases hcb : ne_better c b = true
  · rw [if_pos hcb]
    have hbF : ((b :: c :: l).all (fun d => !ne_better d b)) = false := by
      simp only [List.all_cons, hcb]
      simp
    rw [findOpt_peel b (c :: l) (b :: c :: l) hbF]
    apply find?_pred_congr
    intro x hx
    simp only [List.all_cons]
    apply band_absorb_right
    intro hrest
    have hcx : ne_better c x = false := by
      have h1 := (Bool.and_eq_true _ _).mp hrest
      simpa using h1.1
    have hbx : ne_better b x = false := by
      cases hv : ne_better b x
      · rfl
      · have h2 := ne_better_trans hcb hv
        simp [h2] at hcx
    simp [hbx]
  · have hcb2 : ne_better c b = false := by
      cases hx : ne_better c b
      · rfl
      · exact absurd hx hcb
    rw [if_neg hcb]
    by_cases hb : ((b :: c :: l).all (fun d => !ne_better d b)) = true
    · have hb2 : ((b :: l).all (fun d => !ne_better d b)) = true := by
        rw [List.all_eq_true]
        intro d hd
        apply List.all_eq_true.mp hb
        rcases List.mem_cons.mp hd with rfl | hd2
        · exact List.mem_cons_self _ _
        · exact List.mem_cons_of_mem _ (List.mem_cons_of_mem _ hd2)
      rw [findOpt_keep b (c :: l) (b :: c :: l) hb,
        findOpt_keep b l (b :: l) hb2]
    · have hbF : ((b :: c :: l).all (fun d => !ne_better d b)) = false := by
        cases hv : (b :: c :: l).all (fun d => !ne_better d b)
        · rfl
        · exact absurd hv hb
      obtain ⟨d, hd, hdb⟩ : ∃ d ∈ b :: c :: l, ne_better d b = true := by
        obtain ⟨d, hd, hdb⟩ := List.all_eq_false.mp hbF
        exact ⟨d, hd, by simpa using hdb⟩
      have hdl : d ∈ l := by
        rcases List.mem_cons.mp hd with rfl | hd2
        · rw [ne_better_irrefl] at hdb
          exact absurd hdb (by simp)
        · rcases List.mem_cons.mp hd2 with rfl | hd3
          · rw [hdb] at hcb2
            exact absurd hcb2 (by simp)
          · exact hd3
      have hbF2 : ((b :: l).all (fun d2 => !ne_better d2 b)) = false := by
        cases hv : (b :: l).all (fun d2 => !ne_better d2 b)
        · rfl
        · have := List.all_eq_true.mp hv d (List.mem_cons_of_mem _ hdl)
          simp [hdb] at this
      have hcF : ((b :: c :: l).all (fun e => !ne_better e c)) = false := by
        cases hv : (b :: c :: l).all (fun e => !ne_better e c)
        · rfl
        · have hbc : ne_better b c = false := by
            have := List.all_eq_true.mp hv b (List.mem_cons_self _ _)
            simpa using this
          have hdc : ne_better d c = true := by
            rw [← ne_better_congr d hcb2 hbc]
            exact hdb
          have := List.all_eq_true.mp hv d
            (List.mem_cons_of_mem _ (List.mem_cons_of_mem _ hdl))
          simp [hdc] at this
      rw [findOpt_peel b (c :: l) (b :: c :: l) hbF]
      rw [findOpt_peel c l (b :: c :: l) hcF]
      rw [findOpt_peel b l (b :: l) hbF2]
      apply find?_pred_congr
      intro x hx
      simp only [List.all_cons]
      apply band_absorb_middle
      intro hbx hX
      have hbx2 : ne_better b x = false := by simpa using hbx
      have hcx : ne_better c x = false := by
        cases hv : ne_better c x
        · rfl
        · have h2 := ne_better_cross hcb2 hv
          simp [h2] at hbx2
      simp [hcx]

/-- Helper (C6): scan step skipping a non-matching guid. -/
theorem zfs_boot_scan_skip (guid : Nat) (path : Option String)
    (best : Option name_entry) (ne : name_entry) (rest : List name_entry)
    (hg : ¬ne.ne_guid = guid) :
    zfs_boot_fix_paths_scan guid path best (ne :: rest) =
      zfs_boot_fix_paths_scan guid path best rest := by
  simp only [zfs_boot_fix_paths_scan, if_neg hg]

/-- Helper (C6): scan step breaking on an exact path match. -/
theorem zfs_boot_scan_exact_hit (guid : Nat) (best : Option name_entry)
    (ne : name_entry) (rest : List name_entry) (p : String)
    (hg : ne.ne_guid = guid) (hp : p = ne.ne_name) :
    zfs_boot_fix_paths_scan guid (some p) best (ne :: rest) = some ne := by
  simp only [zfs_boot_fix_paths_scan, if_pos hg, if_pos hp]

/-- Helper (C6): scan step with no accumulated best takes the candidate. -/
theorem zfs_boot_scan_first (guid : Nat) (ne : name_entry)
    (rest : List name_entry) (p : String)
    (hg : ne.ne_guid = guid) (hp : ¬p = ne.ne_name) :
    zfs_boot_fix_paths_scan guid (some p) none (ne :: rest) =
      zfs_boot_fix_paths_scan guid (some p) (some ne) rest := by
  simp only [zfs_boot_fix_paths_scan, if_pos hg, if_neg hp]

/-- Helper (C6): scan step updating the best by labels, then order. -/
theorem zfs_boot_scan_step (guid : Nat) (best ne : name_entry)
    (rest : List name_entry) (p : String)
    (hg : ne.ne_guid = guid) (hp : ¬p = ne.ne_name) :
    zfs_boot_fix_paths_scan guid (some p) (some best) (ne :: rest) =
      zfs_boot_fix_paths_scan guid (some p)
        (some (if ne_better ne best then ne else best)) rest := by
  simp only [zfs_boot_fix_paths_scan, if_pos hg, if_neg hp]
  by_cases h1 : best.ne_num_labels < ne.ne_num_labels
  · rw [if_pos h1, if_pos (by rw [ne_better_iff]; left; exact h1)]
  · rw [if_neg h1]
    by_cases h2 : ne.ne_num_labels = best.ne_num_labels ∧ ne.ne_order < best.ne_order
    · rw [if_pos h2, if_pos (by rw [ne_better_iff]; right; exact h2)]
    · rw [if_neg h2, if_neg (by rw [ne_better_iff]; omega)]

/-- Helper (C6): with an exact-match candidate present, the scan returns
the first one. -/
theorem zfs_boot_scan_exact (guid : Nat) (p : String) :
    ∀ (names : List name_entry) (best : Option name_entry),
    (∃ ne ∈ names.filter (fun x => x.ne_guid == guid), ne.ne_name = p) →
    zfs_boot_fix_paths_scan guid (some p) best names =
      (names.filter (fun x => x.ne_guid == guid)).find?
        (fun ne => ne.ne_name == p) := by
  intro names
  induction names with
  | nil =>
    intro best h
    obtain ⟨ne, hne, _⟩ := h
    simp at hne
  | cons ne rest ih =>
    intro best h
    by_cases hg : ne.ne_guid = guid
    · have hfil : (ne :: rest).filter (fun x => x.ne_guid == guid) =
        ne :: rest.filter (fun x => x.ne_guid == guid) := by
        simp [List.filter_cons, hg]
      rw [hfil]
      by_cases hname : p = ne.ne_name
      · rw [zfs_boot_scan_exact_hit guid best ne rest p hg hname,
          List.find?_cons_of_pos _ (by simp [hname])]
      · have hrest : ∃ x ∈ rest.filter (fun x => x.ne_guid == guid), x.ne_name = p := by
          obtain ⟨x, hx, hxp⟩ := h
          rw [hfil] at hx
          rcases List.mem_cons.mp hx with rfl | hx2
          · exact absurd hxp.symm hname
          · exact ⟨x, hx2, hxp⟩
        have hfind : (ne :: rest.filter (fun x => x.ne_guid == guid)).find?
            (fun x => x.ne_name == p) =
            (rest.filter (fun x => x.ne_guid == guid)).find?
              (fun x => x.ne_name == p) := by
          apply List.find?_cons_of_neg
          simp
          intro hx
          exact hname hx.symm
        rw [hfind]
        cases best with
        | none =>
          rw [zfs_boot_scan_first guid ne rest p hg hname]
          exact ih (some ne) hrest
        | some b =>
          rw [zfs_boot_scan_step guid b ne rest p hg hname]
          exact ih _ hrest
    · have hfil : (ne :: rest).filter (fun x => x.ne_guid == guid) =
        rest.filter (fun x => x.ne_guid == guid) := by
        simp [List.filter_cons, hg]
      rw [hfil]
      rw [zfs_boot_scan_skip guid (some p) best ne rest hg]
      apply ih
      rw [← hfil]
      rw [hfil]
      obtain ⟨x, hx, hxp⟩ := h
      rw [hfil] at hx
      exact ⟨x, hx, hxp⟩

/-- Helper (C6): with no exact match among the remaining candidates, the
scan carrying an accumulated best returns the first entry of
best-then-candidates that none of them strictly beats. -/
theorem zfs_boot_scan_noexact_acc (guid : Nat) (p : String) :
    ∀ (names : List name_entry) (b : name_entry),
    (∀ ne ∈ names.filter (fun x => x.ne_guid == guid), ¬ne.ne_name = p) →
    zfs_boot_fix_paths_scan guid (some p) (some b) names =
      (b :: names.filter (fun x => x.ne_guid == guid)).find?
        (fun x => (b :: names.filter (fun x2 => x2.ne_guid == guid)).all
          (fun d => !ne_better d x)) := by
  intro names
  induction names with
  | nil =>
    intro b _
    simp only [List.filter_nil]
    rw [show zfs_boot_fix_paths_scan guid (some p) (some b) [] = some b from rfl]
    rw [findOpt_keep b [] [b] (by simp [ne_better_irrefl])]
  | cons ne rest ih =>
    intro b h
    by_cases hg : ne.ne_guid = guid
    · have hfil : (ne :: rest).filter (fun x => x.ne_guid == guid) =
        ne :: rest.filter (fun x => x.ne_guid == guid) := by
        simp [List.filter_cons, hg]
      have hname : ¬p = ne.ne_name := by
        intro hh
        exact h ne (by rw [hfil]; exact List.mem_cons_self _ _) hh.symm
      have hrest : ∀ x ∈ rest.filter (fun x2 => x2.ne_guid == guid), ¬x.ne_name = p := by
        intro x hx
        exact h x (by rw [hfil]; exact List.mem_cons_of_mem _ hx)
      rw [hfil]
      rw [zfs_boot_scan_step guid b ne rest p hg hname]
      rw [ih (if ne_better ne b then ne else b) hrest]
      exact (findOpt_cons_cons b ne (rest.filter (fun x => x.ne_guid == guid))).symm
    · have hfil : (ne :: rest).filter (fun x => x.ne_guid == guid) =
        rest.filter (fun x => x.ne_guid == guid) := by
        simp [List.filter_cons, hg]
      rw [hfil, zfs_boot_scan_skip guid (some p) (some b) ne rest hg]
      exact ih b (fun x hx => h x (by rw [hfil]; exact hx))

/-- Helper (C6): with no exact match at all, the scan returns the first
candidate that no candidate strictly beats. -/
theorem zfs_boot_scan_noexact (guid : Nat) (p : String) :
    ∀ (names : List name_entry),
    (∀ ne ∈ names.filter (fun x => x.ne_guid == guid), ¬ne.ne_name = p) →
    zfs_boot_fix_paths_scan guid (some p) none names =
      (names.filter (fun x => x.ne_guid == guid)).find?
        (fun x => (names.filter (fun x2 => x2.ne_guid == guid)).all
          (fun d => !ne_better d x)) := by
  intro names
  induction names with
  | nil => intro _; rfl
  | cons ne rest ih =>
    intro h
    by_cases hg : ne.ne_guid = guid
    · have hfil : (ne :: rest).filter (fun x => x.ne_guid == guid) =
        ne :: rest.filter (fun x => x.ne_guid == guid) := by
        simp [List.filter_cons, hg]
      have hname : ¬p = ne.ne_name := by
        intro hh
        exact h ne (by rw [hfil]; exact List.mem_cons_self _ _) hh.symm
      have hrest : ∀ x ∈ rest.filter (fun x2 => x2.ne_guid == guid), ¬x.ne_name = p := by
        intro x hx
        exact h x (by rw [hfil]; exact List.mem_cons_of_mem _ hx)
      rw [hfil]
      rw [zfs_boot_scan_first guid ne rest p hg hname]
      exact zfs_boot_scan_noexact_acc guid p rest ne hrest
    · have hfil : (ne :: rest).filter (fun x => x.ne_guid == guid) =
        rest.filter (fun x => x.ne_guid == guid) := by
        simp [List.filter_cons, hg]
      rw [hfil, zfs_boot_scan_skip guid (some p) none ne rest hg]
      exact ih (fun x hx => h x (by rw [hfil]; exact hx))

/-- C6: on a leaf vdev with a guid and a current path, the source's path
fixup equals the spec-side choice: a candidate name equal to the current
path is taken outright (the first such), otherwise the first candidate no
candidate strictly beats (more labels wins, then lower order, then first
encountered); the chosen name is written into the path and the devid is
removed. -/
theorem zfs_boot_C6_fix_paths_leaf (nv : LeafVdev) (names : List name_entry)
    (g : Nat) (p : String) (hg : nv.guid = some g) (hp : nv.path = some p) :
    zfs_boot_fix_paths_leaf nv names =
      match zfs_boot_spec_choose (names.filter (fun ne => ne.ne_guid == g)) p with
      | none => nv
      | some best => { nv with path := some best.ne_name, devid := none } := by
  unfold zfs_boot_fix_paths_leaf zfs_boot_spec_choose
  simp only [hg, hp]
  by_cases hex : ∃ ne ∈ names.filter (fun x => x.ne_guid == g), ne.ne_name = p
  · rw [zfs_boot_scan_exact g p names none hex]
    cases hfind : (names.filter (fun x => x.ne_guid == g)).find?
        (fun ne => ne.ne_name == p) with
    | none =>
      exfalso
      rw [List.find?_eq_none] at hfind
      obtain ⟨ne, hne, hnp⟩ := hex
      exact hfind ne hne (by simp [hnp])
    | some x =>
      simp [zfs_boot_get_devid]
  · have hex2 : ∀ ne ∈ names.filter (fun x => x.ne_guid == g), ¬ne.ne_name = p := by
      intro ne hne hnp
      exact hex ⟨ne, hne, hnp⟩
    rw [zfs_boot_scan_noexact g p names hex2]
    have hfnone : (names.filter (fun x => x.ne_guid == g)).find?
        (fun ne => ne.ne_name == p) = none := by
      rw [List.find?_eq_none]
      intro x hx
      simp
      exact hex2 x hx
    rw [hfnone]
    cases hopt : (names.filter (fun x => x.ne_guid == g)).find?
        (fun x => (names.filter (fun x2 => x2.ne_guid == g)).all
          (fun d => !ne_better d x)) with
    | none => simp
    | some best => simp [zfs_boot_get_devid]

/-- The leaf vdev of the C6 witness. -/
def nvC6 : LeafVdev :=
  { guid := some 7, path := some "/dev/disk2", devid := some "old-devid" }

/-- Name entries for the C6 witness: two candidates with guid 7 (equal
labels, different orders) and one with a different guid. -/
def namesC6 : List name_entry :=
  [⟨"/dev/disk3", 7, 2, 2⟩, ⟨"/dev/disk4", 7, 1, 2⟩, ⟨"/dev/disk5", 8, 1, 4⟩]

/-- Witness for C6 on the concrete leaf and name list. -/
theorem zfs_boot_C6_witness :
    zfs_boot_fix_paths_leaf nvC6 namesC6 =
      match zfs_boot_spec_choose (namesC6.filter (fun ne => ne.ne_guid == 7))
          "/dev/disk2" with
      | none => nvC6
      | some best => { nvC6 with path := some best.ne_name, devid := none } :=
  zfs_boot_C6_fix_paths_leaf nvC6 namesC6 7 "/dev/disk2" rfl rfl
